import Mathlib

/-!
Verification of the `emdp` gridworld construction pipeline
(`emdp/gridworld/__init__.py`).

The embedding follows the source file: the hard-coded ascii room, the
transition-matrix builder calls (`add_grid`, `add_wall_at`), the reward
matrix, the initial distribution `p0`, and the runtime wrappers
(`reset`, `step`, `set_current_state_to`).  The helper modules
`txt_utilities`, `builder_tools`, `helper_utilities` and the base `MDP`
class are not part of the visible sources; their definitions below are
modelled from the specification and are marked as such.

Vectors are lists of rationals; matrices are functions `Nat → ... → ℚ`
together with explicitly recorded shapes.
-/

/-- Error kinds raised during construction (spec section 7). -/
inductive GWError where
  | outOfBounds
  | malformedMap
  | invalidWall
deriving DecidableEq

/-- A one-hot vector: `np.zeros(total)` with a `1` written at `idx`
(a no-op when `idx` is out of range, like the spec's zero vector). -/
def onehot (total idx : Nat) : List ℚ :=
  (List.replicate total (0 : ℚ)).set idx 1

/-- Auxiliary scan for `listArgmax`: `i` is the index of the head of the
remaining list, `best` the index of the best entry so far, `bv` its value. -/
def argmaxAux : List ℚ → Nat → Nat → ℚ → Nat
  | [], _, best, _ => best
  | x :: xs, i, best, bv =>
    if bv < x then argmaxAux xs (i + 1) i x else argmaxAux xs (i + 1) best bv

/-- `np.argmax`: index of the first maximal entry (0 on the empty list). -/
def listArgmax : List ℚ → Nat
  | [] => 0
  | x :: xs => argmaxAux xs 1 0 x

/-- `np.ndarray.nonzero` for a 1-d array: the indices of nonzero entries. -/
def nonzero (l : List ℚ) : List Nat :=
  (l.enum.filter (fun p => p.2 ≠ 0)).map (fun p => p.1)

namespace helper_utilities

/-- Modelled from the spec: `helper_utilities.flatten_state` (missing from
`src/`).  Computes the flat index `size*row + col`, produces a zero vector of
length `total_states` with a `1` at that index, and fails with
`OutOfBoundsError` if `row` or `col` is outside `[0, size)`. -/
def flatten_state (state : Int × Int) (size : Nat) (total_states : Nat) :
    Except GWError (List ℚ) :=
  if state.1 < 0 ∨ (size : Int) ≤ state.1 ∨ state.2 < 0 ∨ (size : Int) ≤ state.2 then
    .error .outOfBounds
  else
    .ok (onehot total_states (size * state.1.toNat + state.2.toNat))

/-- Modelled from the spec: `helper_utilities.unflatten_state` (missing from
`src/`).  Finds the index of the 1-entry via `argmax`; when an absorbing state
exists and the index is the last one (`size*size`) it returns the sentinel
`none` (the `(None, None)` pair), otherwise `(index / size, index % size)`. -/
def unflatten_state (onehotv : List ℚ) (size : Nat) (has_absorbing : Bool) :
    Option (Nat × Nat) :=
  let idx := listArgmax onehotv
  if has_absorbing ∧ idx = size * size then none
  else some (idx / size, idx % size)

end helper_utilities

namespace txt_utilities

/-- The raw triple-quoted string of source lines 29-38: a leading newline and
nine rows, each indented with eight spaces. -/
def ascii_room_raw : List Char :=
  ("\n        #########\n        #   #   #\n        #       #\n        #   #   #\n        ## ### ##\n        #   #   #\n        #       #\n        #   #   #\n        #########").toList

/-- `str.split('\n')` on a list of characters. -/
def splitOnNewlines : List Char → List (List Char)
  | [] => [[]]
  | c :: rest =>
    if c = '\n' then [] :: splitOnNewlines rest
    else
      match splitOnNewlines rest with
      | [] => [[c]]
      | l :: ls => (c :: l) :: ls

/-- `str.strip()` for the rows at hand (whitespace here is just spaces). -/
def stripChars (l : List Char) : List Char :=
  ((l.dropWhile (fun c => c = ' ')).reverse.dropWhile (fun c => c = ' ')).reverse

/-- Source lines 38-39: drop the leading newline, split on newlines and strip
each row. -/
def ascii_room : List (List Char) :=
  (splitOnNewlines (ascii_room_raw.drop 1)).map stripChars

/-- Modelled from the spec: `txt_utilities.get_char_matrix` (missing from
`src/`) tokenizes the rows into a rectangular character matrix; on our
char-list representation of strings this is the identity. -/
def get_char_matrix (rows : List (List Char)) : List (List Char) := rows

/-- Modelled from the spec: `txt_utilities.ascii_to_walls` (missing from
`src/`).  Classifies every cell of the character matrix, `'#'` marking a wall
and anything else an open cell, returning the wall coordinates and the open
coordinates as 0-indexed row-major `(row, col)` pairs. -/
def ascii_to_walls (cm : List (List Char)) :
    List (Nat × Nat) × List (Nat × Nat) :=
  let coords := (List.range cm.length).flatMap
    (fun r => (List.range (cm.getD r []).length).map (fun c => (r, c)))
  (coords.filter (fun rc => (cm.getD rc.1 []).getD rc.2 ' ' = '#'),
   coords.filter (fun rc => (cm.getD rc.1 []).getD rc.2 ' ' ≠ '#'))

end txt_utilities

namespace builder_tools

/-- Modelled from the spec: the action set is the fixed enumeration
`LEFT = 0, RIGHT = 1, UP = 2, DOWN = 3`, each a unit displacement applied to a
`(row, col)` coordinate and clipped to stay inside `[0, n)` on each axis
(a move across a grid edge leaves the coordinate unchanged on that axis). -/
def step_target (n r c a : Nat) : Nat × Nat :=
  if a = 0 then (r, if c = 0 then c else c - 1)
  else if a = 1 then (r, if c + 1 < n then c + 1 else c)
  else if a = 2 then ((if r = 0 then r else r - 1), c)
  else ((if r + 1 < n then r + 1 else r), c)

/-- Flat index of the clipped target of action `a` from flat state `s` in an
`n × n` grid (addressing scheme `n*row + col`). -/
def tgtIdx (n s a : Nat) : Nat :=
  n * (step_target n (s / n) (s % n) a).1 + (step_target n (s / n) (s % n) a).2

/-- Modelled from the spec: `TransitionMatrixBuilder` allocates `P` of shape
`(n*n[+1]) × |A| × (n*n[+1])`, the extra state present only when
`has_terminal_state` is set. -/
def builderNumStates (n : Nat) (has_terminal : Bool) : Nat :=
  if has_terminal then n * n + 1 else n * n

/-- Modelled from the spec: `TransitionMatrixBuilder.add_grid(p_success)`
(missing from `src/`).  For every coordinate and action `a`,
`P[s,a,target(s,a)]` receives mass `p_success`, and each of the other three
directions' targets receives `(1 - p_success)/3` (no spillover when
`p_success = 1`); masses accumulate when clipped targets coincide. -/
def add_grid (n : Nat) (p : ℚ) : Nat → Nat → Nat → ℚ :=
  fun s a t =>
    ∑ b in Finset.range 4,
      (if b = a then p else (1 - p) / 3) * (if t = tgtIdx n s b then 1 else 0)

/-- Modelled from the spec: `TransitionMatrixBuilder.add_wall_at` (missing
from `src/`).  For every action and every state other than the wall itself,
the probability mass aimed at the wall's column `w` is redirected to the
origin state's self-transition (the agent bounces off the wall and stays
put); the wall cell's own row is left as it is. -/
def add_wall_at (w : Nat) (P : Nat → Nat → Nat → ℚ) : Nat → Nat → Nat → ℚ :=
  fun s a t =>
    if s = w then P s a t
    else if t = w then 0
    else if t = s then P s a s + P s a w
    else P s a t

/-- The walls of the construction loop, applied in order. -/
def applyWalls (ws : List Nat) (P : Nat → Nat → Nat → ℚ) : Nat → Nat → Nat → ℚ :=
  ws.foldl (fun acc w => add_wall_at w acc) P

/-- A `num_states × action_space` reward matrix with its recorded shape. -/
structure RewardMatrix where
  rows : Nat
  cols : Nat
  entry : Nat → Nat → ℚ

/-- Flat index (via `flatten_state` and `argmax`) and reward value of every
goal of a reward specification; fails when a goal is out of bounds. -/
def goalIdxs (grid_size n_states : Nat) :
    List ((Int × Int) × ℚ) → Except GWError (List (Nat × ℚ))
  | [] => .ok []
  | gr :: rest =>
    match helper_utilities.flatten_state gr.1 grid_size n_states,
        goalIdxs grid_size n_states rest with
    | .ok v, .ok l => .ok ((listArgmax v, gr.2) :: l)
    | .error e, _ => .error e
    | .ok _, .error e => .error e

/-- Modelled from the spec: `builder_tools.create_reward_matrix` (missing
from `src/`).  Returns an `R` of shape `num_states × action_space` with
`R[s,a] = Σ_goal P[s,a,flatten(goal)] * reward(goal)`; the transition tensor
`P` the spec's formula refers to is passed explicitly here since it is not
part of the visible call signature. -/
def create_reward_matrix (n_states grid_size : Nat)
    (reward_spec : List ((Int × Int) × ℚ)) (action_space : Nat)
    (P : Nat → Nat → Nat → ℚ) : Except GWError RewardMatrix :=
  match goalIdxs grid_size n_states reward_spec with
  | .error e => .error e
  | .ok l =>
    .ok { rows := n_states, cols := action_space,
          entry := fun s a => (l.map (fun ir => P s a ir.1 * ir.2)).sum }

end builder_tools

namespace gridworld

/-- Source line 44: `char_matrix = txt_utilities.get_char_matrix(ascii_room)`. -/
def char_matrix : List (List Char) :=
  txt_utilities.get_char_matrix txt_utilities.ascii_room

/-- Source line 47: `grid_size = len(char_matrix[0])`. -/
def grid_size : Nat := (char_matrix.getD 0 []).length

/-- Source line 50: wall coordinates of the parsed room. -/
def walls : List (Nat × Nat) := (txt_utilities.ascii_to_walls char_matrix).1

/-- Source line 50: open-cell coordinates of the parsed room. -/
def empty_ : List (Nat × Nat) := (txt_utilities.ascii_to_walls char_matrix).2

/-- Source lines 51-54: each open coordinate is flattened and its (unique)
nonzero index collected. -/
def emptyIdxs : List Nat :=
  empty_.flatMap (fun e =>
    match helper_utilities.flatten_state ((e.1 : Int), (e.2 : Int)) grid_size
        (grid_size * grid_size) with
    | .ok v => nonzero v
    | .error _ => [])

/-- The flat indices of the wall coordinates under the `n*row + col`
addressing scheme used by the builder. -/
def wallIdxs : List Nat := walls.map (fun rc => grid_size * rc.1 + rc.2)

/-- Source lines 55-57: `builder.add_grid(p_success=1)` followed by
`builder.add_wall_at((r, c))` for every wall, in order. -/
def Pfinal : Nat → Nat → Nat → ℚ :=
  builder_tools.applyWalls wallIdxs (builder_tools.add_grid grid_size 1)

/-- `builder.P.shape[0]` (and `R.shape[0]`): the number of states allocated
by the builder, with `has_terminal_state=False`. -/
def num_states : Nat := builder_tools.builderNumStates grid_size false

/-- Source lines 60-62: `p0` starts as the one-hot vector of `(1, 1)` and
every open flat index is then overwritten with `1/len(empty)`. -/
def p0vec : List ℚ :=
  let base :=
    match helper_utilities.flatten_state ((1 : Int), (1 : Int)) grid_size
        num_states with
    | .ok v => v
    | .error _ => []
  emptyIdxs.foldl (fun acc i => acc.set i ((1 : ℚ) / (emptyIdxs.length : ℚ))) base

/-- Source line 64: the terminal-state tuple is empty. -/
def terminal_coords : List (Nat × Nat) := []

/-- Source lines 67-68: the terminal coordinates converted to flat indices
via `size * row + col`. -/
def terminal_flat : List Nat :=
  terminal_coords.map (fun t => grid_size * t.1 + t.2)

end gridworld

/-- The constructed MDP object: the arrays assembled by
`GridWorldMDP.__init__` together with the runtime fields of the base `MDP`
class (current one-hot state) and the human-readable view. -/
structure GridWorldMDP where
  P : Nat → Nat → Nat → ℚ
  Pshape : Nat × Nat × Nat
  R : builder_tools.RewardMatrix
  discount : ℚ
  p0 : List ℚ
  terminal_states : List Nat
  seed : Nat
  num_states : Nat
  size : Nat
  has_absorbing_state : Bool
  current_state : List ℚ
  human_state : Option (Nat × Nat)

/-- `GridWorldMDP.__init__(goal)` (source lines 15-72): parses the fixed
room, builds `P` via `add_grid`/`add_wall_at`, builds `R` from the single
entry `reward_spec = {goal: +1}`, computes `p0`, and stores the constants
`discount = 0.9`, `terminal_states = ()`, `seed = 1337`,
`has_absorbing_state = len(terminal_states) > 0` and the initial
`human_state = (None, None)` sentinel.  Fails when the goal coordinate is
out of bounds (the base `MDP` runtime state starts with an empty
current-state vector, which is modelled from the spec). -/
def buildGridWorldMDP (goal : Int × Int) : Except GWError GridWorldMDP :=
  match builder_tools.create_reward_matrix gridworld.num_states
      gridworld.grid_size [(goal, 1)] 4 gridworld.Pfinal with
  | .error e => .error e
  | .ok Rm =>
    .ok { P := gridworld.Pfinal
          Pshape := (gridworld.num_states, 4, gridworld.num_states)
          R := Rm
          discount := 9 / 10
          p0 := gridworld.p0vec
          terminal_states := gridworld.terminal_flat
          seed := 1337
          num_states := gridworld.num_states
          size := gridworld.grid_size
          has_absorbing_state := decide (0 < gridworld.terminal_flat.length)
          current_state := []
          human_state := none }

/-- Source lines 79-81: `flatten_state(state)` with the instance's `size` and
`num_states`. -/
def GridWorldMDP.flatten_state (gw : GridWorldMDP) (state : Int × Int) :
    Except GWError (List ℚ) :=
  helper_utilities.flatten_state state gw.size gw.num_states

/-- Source lines 83-85: `unflatten_state(onehot)` with the instance's `size`
and `has_absorbing_state`. -/
def GridWorldMDP.unflatten_state (gw : GridWorldMDP) (onehotv : List ℚ) :
    Option (Nat × Nat) :=
  helper_utilities.unflatten_state onehotv gw.size gw.has_absorbing_state

/-- Source lines 74-77 with the base `MDP.reset` modelled from the spec: the
base runtime samples an initial index `i` from `p0` (the sampled index is a
parameter here) and stores its one-hot vector as the current state; the
wrapper then refreshes the human-readable view.  Returns the new current
state like the source does. -/
def GridWorldMDP.reset (gw : GridWorldMDP) (i : Nat) : GridWorldMDP × List ℚ :=
  let cur := onehot gw.num_states i
  let gw' := { gw with
    current_state := cur
    human_state := helper_utilities.unflatten_state cur gw.size gw.has_absorbing_state }
  (gw', cur)

/-- Source lines 87-90 with the base `MDP.step` modelled from the spec: the
base runtime samples the next index `j` from the row
`P[argmax(current_state), a, :]` (the sampled index is a parameter here),
emits the paired reward from `R`, and `done` is true iff the resulting state
is a declared terminal or the absorbing state; the wrapper then refreshes the
human-readable view. -/
def GridWorldMDP.step (gw : GridWorldMDP) (a : Nat) (j : Nat) :
    GridWorldMDP × (List ℚ × ℚ × Bool) :=
  let s := listArgmax gw.current_state
  let cur := onehot gw.num_states j
  let done := decide (j ∈ gw.terminal_states) ||
    (gw.has_absorbing_state && decide (j = gw.num_states - 1))
  let gw' := { gw with
    current_state := cur
    human_state := helper_utilities.unflatten_state cur gw.size gw.has_absorbing_state }
  (gw', (cur, gw.R.entry s a, done))

/-- Source lines 92-93 with the base `MDP.set_current_state_to` modelled from
the spec: the coordinate is flattened, its `argmax` taken, and the base
runtime's current state is forced to that index's one-hot vector. -/
def GridWorldMDP.set_current_state_to (gw : GridWorldMDP)
    (tuple_state : Int × Int) : Except GWError GridWorldMDP :=
  match gw.flatten_state tuple_state with
  | .error e => .error e
  | .ok v => .ok { gw with current_state := onehot gw.num_states (listArgmax v) }

/-- The cell where the agent deterministically lands when taking action `a`
in flat state `s` of the constructed tensor: the clipped grid target, except
that a target inside a wall bounces back to `s`. -/
def detTarget (s a : Nat) : Nat :=
  if builder_tools.tgtIdx gridworld.grid_size s a ∈ gridworld.wallIdxs then s
  else builder_tools.tgtIdx gridworld.grid_size s a

/-- A small concrete instance used to instantiate universally quantified
runtime theorems. -/
def gwTriv : GridWorldMDP :=
  { P := fun _ _ _ => 1
    Pshape := (1, 1, 1)
    R := { rows := 1, cols := 1, entry := fun _ _ => 0 }
    discount := 9 / 10
    p0 := [1]
    terminal_states := []
    seed := 0
    num_states := 1
    size := 1
    has_absorbing_state := false
    current_state := [1]
    human_state := none }

/-- The instance built with goal `(2, 2)`, used to instantiate construction
theorems. -/
def gw22 : GridWorldMDP :=
  match buildGridWorldMDP (2, 2) with
  | .ok g => g
  | .error _ => gwTriv

theorem build22 : buildGridWorldMDP (2, 2) = .ok gw22 := rfl

/-! ### One-hot vectors and argmax -/

theorem length_onehot (n i : Nat) : (onehot n i).length = n := by
  simp [onehot]

theorem getD_onehot (n i j : Nat) :
    (onehot n i).getD j 0 = if j = i ∧ i < n then 1 else 0 := by
  simp only [onehot, List.getD_eq_getElem?_getD, List.getElem?_set,
    List.length_replicate, List.getElem?_replicate]
  split_ifs <;> simp_all

theorem set_replicate_eq :
    ∀ (i n : Nat), i < n →
      (List.replicate n (0 : ℚ)).set i 1 =
        List.replicate i 0 ++ 1 :: List.replicate (n - i - 1) 0 := by
  intro i
  induction i with
  | zero =>
    intro n hn
    match n, hn with
    | m + 1, _ => simp [List.replicate_succ]
  | succ i ih =>
    intro n hn
    match n, hn with
    | m + 1, hm =>
      have hlt : i < m := by omega
      have he : m + 1 - (i + 1) - 1 = m - i - 1 := by omega
      simp only [List.replicate_succ, List.set, List.cons_append, he]
      rw [ih m hlt]

theorem argmaxAux_zeros :
    ∀ (k : Nat) (l : List ℚ) (i best : Nat) (bv : ℚ), 0 ≤ bv →
      argmaxAux (List.replicate k (0 : ℚ) ++ l) i best bv =
        argmaxAux l (i + k) best bv := by
  intro k
  induction k with
  | zero => intro l i best bv _; simp
  | succ k ih =>
    intro l i best bv h
    rw [List.replicate_succ, List.cons_append]
    show (if bv < 0 then _ else argmaxAux (List.replicate k 0 ++ l) (i + 1) best bv) = _
    rw [if_neg (not_lt.mpr h), ih l (i + 1) best bv h]
    congr 1
    omega

theorem listArgmax_onehot (n i : Nat) (h : i < n) : listArgmax (onehot n i) = i := by
  rw [onehot, set_replicate_eq i n h]
  cases i with
  | zero =>
    show listArgmax (1 :: List.replicate (n - 1) 0) = 0
    show argmaxAux (List.replicate (n - 1) 0) 1 0 1 = 0
    have := argmaxAux_zeros (n - 1) [] 1 0 1 (by norm_num)
    rw [List.append_nil] at this
    rw [this]
    rfl
  | succ i =>
    show listArgmax (0 :: (List.replicate i 0 ++ 1 :: List.replicate (n - (i+1) - 1) 0)) = i + 1
    show argmaxAux (List.replicate i 0 ++ 1 :: List.replicate (n - (i+1) - 1) 0) 1 0 0 = i + 1
    rw [argmaxAux_zeros i _ 1 0 0 le_rfl]
    show (if (0:ℚ) < 1 then argmaxAux (List.replicate (n - (i+1) - 1) 0) (1 + i + 1) (1 + i) 1
      else _) = i + 1
    rw [if_pos (by norm_num)]
    have := argmaxAux_zeros (n - (i+1) - 1) [] (1 + i + 1) (1 + i) 1 (by norm_num)
    rw [List.append_nil] at this
    rw [this]
    show 1 + i = i + 1
    omega

/-! ### The state coder -/

theorem flatten_state_ok (size total r c : Nat) (hr : r < size) (hc : c < size) :
    helper_utilities.flatten_state ((r : Int), (c : Int)) size total =
      .ok (onehot total (size * r + c)) := by
  unfold helper_utilities.flatten_state
  rw [if_neg (by omega)]
  simp

theorem flatten_state_err (size total : Nat) (r c : Int)
    (h : r < 0 ∨ (size : Int) ≤ r ∨ c < 0 ∨ (size : Int) ≤ c) :
    helper_utilities.flatten_state (r, c) size total = .error .outOfBounds := by
  unfold helper_utilities.flatten_state
  rw [if_pos h]

theorem unflatten_onehot (n k : Nat) (hk : k < n * n) :
    helper_utilities.unflatten_state (onehot (n * n) k) n false =
      some (k / n, k % n) := by
  unfold helper_utilities.unflatten_state
  rw [listArgmax_onehot _ _ hk]
  simp

theorem flat_lt (n r c : Nat) (hr : r < n) (hc : c < n) : n * r + c < n * n :=
  calc n * r + c < n * r + n := by omega
  _ = n * (r + 1) := by ring
  _ ≤ n * n := Nat.mul_le_mul_left n hr

/-- C5: for every in-bounds coordinate `(r, c)` with `r, c < size` and no
absorbing state, `flatten_state` produces the one-hot vector with a `1` at
flat index `size*r + c`, and `unflatten_state` recovers
`(index / size, index % size)` from the argmax, so the round trip is the
identity. -/
theorem C5_round_trip (n r c : Nat) (v : List ℚ) (hr : r < n) (hc : c < n)
    (hv : helper_utilities.flatten_state ((r : Int), (c : Int)) n (n * n) = .ok v) :
    v = onehot (n * n) (n * r + c) ∧
      helper_utilities.unflatten_state v n false = some (r, c) := by
  rw [flatten_state_ok n (n * n) r c hr hc] at hv
  cases hv
  refine ⟨rfl, ?_⟩
  rw [unflatten_onehot n (n * r + c) (flat_lt n r c hr hc)]
  have hn : 0 < n := by omega
  rw [Nat.mul_add_div hn, Nat.mul_add_mod, Nat.div_eq_of_lt hc,
    Nat.mod_eq_of_lt hc, Nat.add_zero]

theorem C5_round_trip_witness :
    (2 : Nat) < 9 ∧ (3 : Nat) < 9 ∧
      onehot (9 * 9) (9 * 2 + 3) = onehot (9 * 9) (9 * 2 + 3) ∧
      helper_utilities.unflatten_state (onehot (9 * 9) (9 * 2 + 3)) 9 false =
        some (2, 3) :=
  ⟨by norm_num, by norm_num,
    (C5_round_trip 9 2 3 (onehot (9 * 9) (9 * 2 + 3)) (by norm_num) (by norm_num) rfl).1,
    (C5_round_trip 9 2 3 (onehot (9 * 9) (9 * 2 + 3)) (by norm_num) (by norm_num) rfl).2⟩

/-! ### The transition builder: row sums -/

theorem step_target_lt (n r c a : Nat) (hr : r < n) (hc : c < n) :
    (builder_tools.step_target n r c a).1 < n ∧
      (builder_tools.step_target n r c a).2 < n := by
  unfold builder_tools.step_target
  split_ifs <;> exact ⟨by omega, by omega⟩

theorem tgtIdx_lt (n s a : Nat) (hs : s < n * n) (hn : 0 < n) :
    builder_tools.tgtIdx n s a < n * n := by
  have hr : s / n < n := by
    rw [Nat.div_lt_iff_lt_mul hn]; exact hs
  have hc : s % n < n := Nat.mod_lt s hn
  obtain ⟨h1, h2⟩ := step_target_lt n (s / n) (s % n) a hr hc
  exact flat_lt n _ _ h1 h2

theorem add_grid_rowsum (n : Nat) (p : ℚ) (s a : Nat) (hs : s < n * n)
    (hn : 0 < n) (ha : a < 4) :
    ∑ t in Finset.range (n * n), builder_tools.add_grid n p s a t = 1 := by
  unfold builder_tools.add_grid
  rw [Finset.sum_comm]
  have hone : ∀ b ∈ Finset.range 4,
      (∑ t in Finset.range (n * n),
        (if b = a then p else (1 - p) / 3) *
          (if t = builder_tools.tgtIdx n s b then 1 else 0)) =
      (if b = a then p else (1 - p) / 3) := by
    intro b _
    rw [← Finset.mul_sum,
      Finset.sum_ite_eq' (Finset.range (n * n)) (builder_tools.tgtIdx n s b)
        (fun _ => (1 : ℚ)),
      if_pos (Finset.mem_range.mpr (tgtIdx_lt n s b hs hn))]
    ring
  rw [Finset.sum_congr rfl hone]
  interval_cases a <;> (simp [Finset.sum_range_succ]; ring)

theorem add_wall_rowsum (N w s a : Nat) (P : Nat → Nat → Nat → ℚ)
    (hw : w < N) (hs : s < N) :
    ∑ t in Finset.range N, builder_tools.add_wall_at w P s a t =
      ∑ t in Finset.range N, P s a t := by
  by_cases hsw : s = w
  · subst hsw
    unfold builder_tools.add_wall_at
    simp
  · have hmem_s : s ∈ Finset.range N := Finset.mem_range.mpr hs
    have hmem_w : w ∈ (Finset.range N).erase s :=
      Finset.mem_erase.mpr ⟨fun h => hsw h.symm, Finset.mem_range.mpr hw⟩
    rw [← Finset.add_sum_erase _ _ hmem_s, ← Finset.add_sum_erase _ _ hmem_w,
      ← Finset.add_sum_erase _ (fun t => P s a t) hmem_s,
      ← Finset.add_sum_erase _ _ hmem_w]
    have htail :
        ∑ t in ((Finset.range N).erase s).erase w,
          builder_tools.add_wall_at w P s a t =
        ∑ t in ((Finset.range N).erase s).erase w, P s a t := by
      apply Finset.sum_congr rfl
      intro t ht
      have htw : t ≠ w := (Finset.mem_erase.mp ht).1
      have hts : t ≠ s := (Finset.mem_erase.mp (Finset.mem_erase.mp ht).2).1
      unfold builder_tools.add_wall_at
      rw [if_neg hsw, if_neg htw, if_neg hts]
    have hvs : builder_tools.add_wall_at w P s a s = P s a s + P s a w := by
      unfold builder_tools.add_wall_at
      rw [if_neg hsw, if_neg hsw, if_pos rfl]
    have hvw : builder_tools.add_wall_at w P s a w = 0 := by
      unfold builder_tools.add_wall_at
      rw [if_neg hsw, if_pos rfl]
    rw [htail, hvs, hvw]
    ring

theorem applyWalls_rowsum (N : Nat) :
    ∀ (L : List Nat) (P : Nat → Nat → Nat → ℚ) (s a : Nat),
      (∀ w ∈ L, w < N) → s < N →
      (∑ t in Finset.range N, P s a t = 1) →
      ∑ t in Finset.range N, builder_tools.applyWalls L P s a t = 1 := by
  intro L
  induction L with
  | nil =>
    intro P s a _ _ h
    simpa [builder_tools.applyWalls] using h
  | cons w L ih =>
    intro P s a hL hs h
    show ∑ t in Finset.range N,
      builder_tools.applyWalls L (builder_tools.add_wall_at w P) s a t = 1
    refine ih _ s a (fun w' hw' => hL w' (List.mem_cons_of_mem _ hw')) hs ?_
    rw [add_wall_rowsum N w s a P (hL w (List.mem_cons_self w L)) hs]
    exact h

theorem wallIdxs_lt : ∀ w ∈ gridworld.wallIdxs, w < 81 := by decide

theorem grid_size_eq : gridworld.grid_size = 9 := by decide

/-- C1: in the constructed transition tensor, every row `P[s,a,:]` over all
81 states (open or wall) and all 4 actions sums to 1 after `add_grid` (the
`k = 0` prefix) and after each `add_wall_at` of the construction loop (the
`take k` prefixes of the wall list). -/
theorem C1_row_stochastic (k s a : Nat) (hs : s < 81) (ha : a < 4) :
    ∑ t in Finset.range 81,
      builder_tools.applyWalls (gridworld.wallIdxs.take k)
        (builder_tools.add_grid gridworld.grid_size 1) s a t = 1 := by
  apply applyWalls_rowsum 81
  · intro w hw
    exact wallIdxs_lt w (List.take_subset k _ hw)
  · exact hs
  · rw [grid_size_eq]
    have := add_grid_rowsum 9 1 s a (by omega) (by norm_num) ha
    simpa using this

theorem C1_row_stochastic_witness :
    ∑ t in Finset.range 81,
      builder_tools.applyWalls (gridworld.wallIdxs.take 3)
        (builder_tools.add_grid gridworld.grid_size 1) 10 0 t = 1 :=
  C1_row_stochastic 3 10 0 (by norm_num) (by norm_num)

/-! ### The transition builder: deterministic one-hot rows -/

theorem add_grid_one (n s a : Nat) (ha : a < 4) :
    ∀ t, builder_tools.add_grid n 1 s a t =
      if t = builder_tools.tgtIdx n s a then 1 else 0 := by
  intro t
  unfold builder_tools.add_grid
  have hw : ∀ b, (if b = a then (1 : ℚ) else (1 - 1) / 3) *
      (if t = builder_tools.tgtIdx n s b then (1 : ℚ) else 0) =
      if b = a then (if t = builder_tools.tgtIdx n s b then (1 : ℚ) else 0) else 0 := by
    intro b
    by_cases hb : b = a <;> simp [hb]
  rw [Finset.sum_congr rfl (fun b _ => hw b),
    Finset.sum_ite_eq' (Finset.range 4) a
      (fun b => if t = builder_tools.tgtIdx n s b then (1 : ℚ) else 0),
    if_pos (Finset.mem_range.mpr ha)]

/-- Where a one-hot row mass at `u` ends up after `add_wall_at w` is applied
to row `s`: redirected to `s` when it sat in the wall's column. -/
def bounceStep (s u w : Nat) : Nat := if s ≠ w ∧ u = w then s else u

/-- The one-hot position of row `s` after a list of walls is applied. -/
def foldBounce (s u : Nat) (L : List Nat) : Nat := L.foldl (bounceStep s) u

theorem add_wall_onehot (w s a u : Nat) (P : Nat → Nat → Nat → ℚ)
    (hP : ∀ t, P s a t = if t = u then 1 else 0) :
    ∀ t, builder_tools.add_wall_at w P s a t =
      if t = bounceStep s u w then 1 else 0 := by
  intro t
  simp only [builder_tools.add_wall_at, bounceStep, hP]
  split_ifs <;> first | rfl | omega | norm_num

theorem applyWalls_onehot (s a : Nat) :
    ∀ (L : List Nat) (P : Nat → Nat → Nat → ℚ) (u : Nat),
      (∀ t, P s a t = if t = u then 1 else 0) →
      ∀ t, builder_tools.applyWalls L P s a t =
        if t = foldBounce s u L then 1 else 0 := by
  intro L
  induction L with
  | nil => intro P u hP t; exact hP t
  | cons w L ih =>
    intro P u hP t
    exact ih _ (bounceStep s u w) (add_wall_onehot w s a u P hP) t

theorem bounceStep_self (s w : Nat) : bounceStep s s w = s := by
  unfold bounceStep
  split_ifs <;> rfl

theorem foldBounce_self (s : Nat) : ∀ L, foldBounce s s L = s := by
  intro L
  induction L with
  | nil => rfl
  | cons w L ih =>
    show foldBounce s (bounceStep s s w) L = s
    rw [bounceStep_self]
    exact ih

theorem foldBounce_eq (s : Nat) :
    ∀ (L : List Nat) (u : Nat),
      foldBounce s u L = if u ∈ L ∧ u ≠ s then s else u := by
  intro L
  induction L with
  | nil => intro u; simp [foldBounce]
  | cons w L ih =>
    intro u
    show foldBounce s (bounceStep s u w) L = _
    by_cases hus : u = s
    · subst hus
      rw [bounceStep_self, foldBounce_self]
      rw [if_neg (fun h => h.2 rfl)]
    · by_cases huw : u = w
      · subst huw
        have hb : bounceStep s u u = s := by
          unfold bounceStep
          rw [if_pos ⟨fun h => hus h.symm, rfl⟩]
        rw [hb, foldBounce_self,
          if_pos ⟨List.mem_cons_self u L, hus⟩]
      · have hb : bounceStep s u w = u := by
          unfold bounceStep
          rw [if_neg (fun h => huw h.2)]
        rw [hb, ih u]
        by_cases hm : u ∈ L ∧ u ≠ s
        · rw [if_pos hm, if_pos ⟨List.mem_cons_of_mem _ hm.1, hm.2⟩]
        · rw [if_neg hm, if_neg (fun hc => hm ⟨(List.mem_cons.mp hc.1).resolve_left huw, hc.2⟩)]

theorem Pfinal_onehot (s a : Nat) (ha : a < 4) :
    ∀ t, gridworld.Pfinal s a t = if t = detTarget s a then 1 else 0 := by
  intro t
  unfold gridworld.Pfinal
  rw [applyWalls_onehot s a gridworld.wallIdxs _
    (builder_tools.tgtIdx gridworld.grid_size s a) (add_grid_one _ s a ha) t]
  have hpos : foldBounce s (builder_tools.tgtIdx gridworld.grid_size s a)
      gridworld.wallIdxs = detTarget s a := by
    rw [foldBounce_eq]
    unfold detTarget
    by_cases h : builder_tools.tgtIdx gridworld.grid_size s a ∈ gridworld.wallIdxs
    · by_cases h2 : builder_tools.tgtIdx gridworld.grid_size s a = s
      · rw [if_neg (fun hc => hc.2 h2), if_pos h]
        exact h2
      · rw [if_pos ⟨h, h2⟩, if_pos h]
    · rw [if_neg (fun hc => h hc.1), if_neg h]
  rw [hpos]

/-! ### Wall columns are never reachable -/

theorem add_wall_zero_pres (w s a t : Nat) (P : Nat → Nat → Nat → ℚ)
    (h0 : P s a t = 0) (hts : t ≠ s) :
    builder_tools.add_wall_at w P s a t = 0 := by
  unfold builder_tools.add_wall_at
  split_ifs with h1 h2
  · exact h0
  · rfl
  · exact h0

theorem applyWalls_zero (s a t : Nat) (hts : t ≠ s) :
    ∀ (L : List Nat) (P : Nat → Nat → Nat → ℚ), P s a t = 0 →
      builder_tools.applyWalls L P s a t = 0 := by
  intro L
  induction L with
  | nil => intro P h; exact h
  | cons w L ih =>
    intro P h
    exact ih _ (add_wall_zero_pres w s a t P h hts)

theorem add_wall_kill (w s a : Nat) (P : Nat → Nat → Nat → ℚ) (hsw : s ≠ w) :
    builder_tools.add_wall_at w P s a w = 0 := by
  unfold builder_tools.add_wall_at
  rw [if_neg hsw, if_pos rfl]

theorem applyWalls_wall_col (s a : Nat) :
    ∀ (L : List Nat) (P : Nat → Nat → Nat → ℚ) (w : Nat), w ∈ L → s ≠ w →
      builder_tools.applyWalls L P s a w = 0 := by
  intro L
  induction L with
  | nil => intro P w hw; cases hw
  | cons w' L ih =>
    intro P w hw hsw
    rcases List.mem_cons.mp hw with h | h
    · subst h
      exact applyWalls_zero s a w (fun h => hsw h.symm) L _
        (add_wall_kill w s a P hsw)
    · exact ih _ w h hsw

theorem empty_wall_disjoint :
    ∀ x ∈ gridworld.emptyIdxs, x ∉ gridworld.wallIdxs := by decide

/-- C4: in the constructed deterministic tensor, every wall column is zero in
every open state's row under every action, and `add_wall_at` redirects the
probability mass aimed at the wall back to the origin state's self-transition
(the agent bounces off the wall and stays put). -/
theorem C4_walls_unreachable :
    (∀ s a w, s ∈ gridworld.emptyIdxs → w ∈ gridworld.wallIdxs →
      gridworld.Pfinal s a w = 0) ∧
    (∀ (P : Nat → Nat → Nat → ℚ) (w s a : Nat), s ≠ w →
      builder_tools.add_wall_at w P s a s = P s a s + P s a w ∧
      builder_tools.add_wall_at w P s a w = 0) := by
  constructor
  · intro s a w hs hw
    have hsw : s ≠ w := fun h => (empty_wall_disjoint s hs) (h ▸ hw)
    exact applyWalls_wall_col s a gridworld.wallIdxs _ w hw hsw
  · intro P w s a hsw
    constructor
    · unfold builder_tools.add_wall_at
      rw [if_neg hsw, if_neg hsw, if_pos rfl]
    · exact add_wall_kill w s a P hsw

theorem C4_walls_unreachable_witness :
    gridworld.Pfinal 10 0 9 = 0 ∧
      (builder_tools.add_wall_at 0 (fun _ _ _ => (1 : ℚ)) 1 0 1 =
          (fun _ _ _ => (1 : ℚ)) 1 0 1 + (fun _ _ _ => (1 : ℚ)) 1 0 0 ∧
        builder_tools.add_wall_at 0 (fun _ _ _ => (1 : ℚ)) 1 0 0 = 0) :=
  ⟨C4_walls_unreachable.1 10 0 9 (by decide) (by decide),
    C4_walls_unreachable.2 (fun _ _ _ => 1) 0 1 0 (by norm_num)⟩

/-! ### The reward matrix -/

theorem num_states_eq : gridworld.num_states = 81 := by decide

/-- C2: the reward matrix of a successfully constructed `GridWorldMDP` has
shape `num_states × action_space = 81 × 4`, every entry is the
probability-weighted sum `P[s,a,flatten(goal)] * 1` over the single
configured goal, and — the transitions being deterministic — the entry is `1`
exactly when the deterministic target of `(s, a)` is the goal cell and `0`
otherwise. -/
theorem C2_reward (g : Int × Int) (gw : GridWorldMDP)
    (hok : buildGridWorldMDP g = .ok gw) :
    gw.R.rows = 81 ∧ gw.R.cols = 4 ∧
      (∀ s a, gw.R.entry s a = gw.P s a (9 * g.1.toNat + g.2.toNat) * 1) ∧
      (∀ s a, s < 81 → a < 4 →
        gw.R.entry s a =
          if detTarget s a = 9 * g.1.toNat + g.2.toNat then 1 else 0) := by
  have hg : g = (g.1, g.2) := rfl
  cases hf : helper_utilities.flatten_state g gridworld.grid_size
      gridworld.num_states with
  | error e =>
    exfalso
    unfold buildGridWorldMDP builder_tools.create_reward_matrix
      builder_tools.goalIdxs at hok
    rw [hf] at hok
    cases hok
  | ok v =>
    have hcond : ¬(g.1 < 0 ∨ (gridworld.grid_size : Int) ≤ g.1 ∨ g.2 < 0 ∨
        (gridworld.grid_size : Int) ≤ g.2) := by
      intro hc
      rw [hg, flatten_state_err gridworld.grid_size gridworld.num_states
        g.1 g.2 hc] at hf
      cases hf
    have hlt : 9 * g.1.toNat + g.2.toNat < 81 := by
      rw [grid_size_eq] at hcond
      omega
    have hv : v = onehot 81 (9 * g.1.toNat + g.2.toNat) := by
      unfold helper_utilities.flatten_state at hf
      rw [if_neg hcond, grid_size_eq, num_states_eq] at hf
      cases hf
      rfl
    have hargmax : listArgmax v = 9 * g.1.toNat + g.2.toNat := by
      rw [hv]
      exact listArgmax_onehot 81 _ hlt
    unfold buildGridWorldMDP builder_tools.create_reward_matrix
      builder_tools.goalIdxs at hok
    rw [hf] at hok
    cases hok
    refine ⟨num_states_eq, rfl, ?_, ?_⟩
    · intro s a
      show ([(listArgmax v, (1 : ℚ))].map
        (fun ir => gridworld.Pfinal s a ir.1 * ir.2)).sum = _
      rw [List.map_cons, List.map_nil, List.sum_cons, List.sum_nil, hargmax,
        add_zero]
    · intro s a _ ha
      show ([(listArgmax v, (1 : ℚ))].map
        (fun ir => gridworld.Pfinal s a ir.1 * ir.2)).sum = _
      rw [List.map_cons, List.map_nil, List.sum_cons, List.sum_nil, hargmax,
        add_zero, Pfinal_onehot s a ha, mul_one]
      by_cases he : detTarget s a = 9 * g.1.toNat + g.2.toNat
      · rw [if_pos he, if_pos he.symm]
      · rw [if_neg he, if_neg (fun hc => he hc.symm)]

theorem C2_reward_witness :
    gw22.R.rows = 81 ∧
      gw22.R.entry 10 0 = gw22.P 10 0 (9 * (2 : Int).toNat + (2 : Int).toNat) * 1 ∧
      gw22.R.entry 10 0 =
        (if detTarget 10 0 = 9 * (2 : Int).toNat + (2 : Int).toNat then 1 else 0) :=
  ⟨(C2_reward (2, 2) gw22 build22).1,
    (C2_reward (2, 2) gw22 build22).2.2.1 10 0,
    (C2_reward (2, 2) gw22 build22).2.2.2 10 0 (by norm_num) (by norm_num)⟩

/-! ### The initial distribution -/

theorem foldl_set_getD :
    ∀ (idxs : List Nat) (l : List ℚ) (v : ℚ) (i : Nat),
      (∀ j ∈ idxs, j < l.length) →
      (idxs.foldl (fun acc j => acc.set j v) l).getD i 0 =
        if i ∈ idxs then v else l.getD i 0 := by
  intro idxs
  induction idxs with
  | nil => intro l v i _; simp
  | cons j rest ih =>
    intro l v i hb
    show (rest.foldl _ (l.set j v)).getD i 0 = _
    rw [ih (l.set j v) v i (fun x hx => by
      rw [List.length_set]; exact hb x (List.mem_cons_of_mem _ hx))]
    by_cases hir : i ∈ rest
    · rw [if_pos hir, if_pos (List.mem_cons_of_mem _ hir)]
    · rw [if_neg hir]
      by_cases hij : i = j
      · subst hij
        have hlen : i < l.length := hb i (List.mem_cons_self i rest)
        rw [if_pos (List.mem_cons_self i rest), List.getD_eq_getElem?_getD,
          List.getElem?_set, if_pos rfl, if_pos hlen]
        rfl
      · rw [if_neg (fun hc =>
          hij ((List.mem_cons.mp hc).resolve_right hir)),
          List.getD_eq_getElem?_getD, List.getElem?_set,
          if_neg (fun h => hij h.symm), ← List.getD_eq_getElem?_getD]

theorem p0vec_unfold :
    gridworld.p0vec =
      gridworld.emptyIdxs.foldl
        (fun acc i => acc.set i ((1 : ℚ) / (gridworld.emptyIdxs.length : ℚ)))
        (onehot 81 10) := rfl

theorem emptyIdxs_lt : ∀ j ∈ gridworld.emptyIdxs, j < 81 := by decide

theorem mem10 : (10 : Nat) ∈ gridworld.emptyIdxs := by decide

theorem p0vec_getD (i : Nat) :
    gridworld.p0vec.getD i 0 =
      if i ∈ gridworld.emptyIdxs then (1 : ℚ) / (gridworld.emptyIdxs.length : ℚ)
      else 0 := by
  rw [p0vec_unfold, foldl_set_getD _ _ _ i (fun j hj => by
    rw [length_onehot]; exact emptyIdxs_lt j hj)]
  by_cases h : i ∈ gridworld.emptyIdxs
  · rw [if_pos h, if_pos h]
  · rw [if_neg h, if_neg h, getD_onehot,
      if_neg (by intro hc; exact h (hc.1 ▸ mem10))]

theorem sum_eq_sum_getD (l : List ℚ) :
    l.sum = ∑ i in Finset.range l.length, l.getD i 0 := by
  induction l with
  | nil => simp
  | cons x xs ih =>
    rw [List.sum_cons, List.length_cons, Finset.sum_range_succ']
    simp only [List.getD_cons_succ, List.getD_cons_zero]
    rw [← ih]
    ring

theorem p0vec_length : gridworld.p0vec.length = 81 := by
  rw [p0vec_unfold]
  have h : ∀ (idxs : List Nat) (l : List ℚ) (v : ℚ),
      (idxs.foldl (fun acc j => acc.set j v) l).length = l.length := by
    intro idxs
    induction idxs with
    | nil => intro l v; rfl
    | cons j rest ih =>
      intro l v
      show (rest.foldl _ (l.set j v)).length = _
      rw [ih (l.set j v) v, List.length_set]
  rw [h, length_onehot]

theorem emptyIdxs_length : gridworld.emptyIdxs.length = 40 := by decide

theorem p0vec_sum : gridworld.p0vec.sum = 1 := by
  rw [sum_eq_sum_getD, p0vec_length,
    Finset.sum_congr rfl (fun i _ => p0vec_getD i), ← Finset.sum_filter,
    Finset.sum_const]
  have hcard :
      ((Finset.range 81).filter (fun i => i ∈ gridworld.emptyIdxs)).card = 40 := by
    decide
  rw [hcard, emptyIdxs_length]
  norm_num

/-- C3: the constructed `p0` sums to 1, each entry is `1/|open cells|` at an
open flat index and `0` elsewhere, an entry is positive precisely at the open
flat indices, and the index of coordinate `(1, 1)` (flat index 10) carries
`1/|open cells|` rather than the stray one-hot mass of the intermediate
vector. -/
theorem C3_p0 :
    gridworld.p0vec.sum = 1 ∧
      (∀ i, gridworld.p0vec.getD i 0 =
        if i ∈ gridworld.emptyIdxs then
          (1 : ℚ) / (gridworld.emptyIdxs.length : ℚ) else 0) ∧
      (∀ i, 0 < gridworld.p0vec.getD i 0 ↔ i ∈ gridworld.emptyIdxs) ∧
      gridworld.p0vec.getD 10 0 = (1 : ℚ) / (gridworld.emptyIdxs.length : ℚ) := by
  refine ⟨p0vec_sum, p0vec_getD, ?_, ?_⟩
  · intro i
    rw [p0vec_getD]
    by_cases h : i ∈ gridworld.emptyIdxs
    · rw [if_pos h, emptyIdxs_length]
      norm_num
      exact h
    · rw [if_neg h]
      simp [h]
  · rw [p0vec_getD, if_pos mem10]

/-! ### The assembled MDP object -/

theorem build_fields (g : Int × Int) (gw : GridWorldMDP)
    (hok : buildGridWorldMDP g = .ok gw) :
    gw.P = gridworld.Pfinal ∧
      gw.Pshape = (gridworld.num_states, 4, gridworld.num_states) ∧
      gw.discount = 9 / 10 ∧
      gw.p0 = gridworld.p0vec ∧
      gw.terminal_states = gridworld.terminal_flat ∧
      gw.seed = 1337 ∧
      gw.num_states = gridworld.num_states ∧
      gw.size = gridworld.grid_size ∧
      gw.has_absorbing_state = decide (0 < gridworld.terminal_flat.length) ∧
      gw.current_state = [] ∧
      gw.human_state = none := by
  unfold buildGridWorldMDP at hok
  cases hcr : builder_tools.create_reward_matrix gridworld.num_states
      gridworld.grid_size [(g, 1)] 4 gridworld.Pfinal with
  | error e => rw [hcr] at hok; cases hok
  | ok Rm =>
    rw [hcr] at hok
    cases hok
    exact ⟨rfl, rfl, rfl, rfl, rfl, rfl, rfl, rfl, rfl, rfl, rfl⟩

/-- C6: on a constructed instance, `flatten_state(coord)` raises
`OutOfBoundsError` whenever the row or column is outside `[0, size)`, and on
an in-bounds coordinate it returns a zero vector of length `num_states`
whose only `1` sits at flat index `size*row + col`. -/
theorem C6_flatten (g : Int × Int) (gw : GridWorldMDP)
    (hok : buildGridWorldMDP g = .ok gw) (r c : Int) :
    ((r < 0 ∨ (gw.size : Int) ≤ r ∨ c < 0 ∨ (gw.size : Int) ≤ c) →
      gw.flatten_state (r, c) = .error GWError.outOfBounds) ∧
    (0 ≤ r → r < (gw.size : Int) → 0 ≤ c → c < (gw.size : Int) →
      ∃ v, gw.flatten_state (r, c) = .ok v ∧
        v.length = gw.num_states ∧
        v.getD (gw.size * r.toNat + c.toNat) 0 = 1 ∧
        ∀ j, j ≠ gw.size * r.toNat + c.toNat → v.getD j 0 = 0) := by
  obtain ⟨-, -, -, -, -, -, hns, hsz, -, -, -⟩ := build_fields g gw hok
  have hs9 : gw.size = 9 := by rw [hsz, grid_size_eq]
  have hn81 : gw.num_states = 81 := by rw [hns, num_states_eq]
  unfold GridWorldMDP.flatten_state
  rw [hs9, hn81]
  constructor
  · intro hoob
    exact flatten_state_err 9 81 r c hoob
  · intro h1 h2 h3 h4
    have hidx : 9 * r.toNat + c.toNat < 81 := by omega
    refine ⟨onehot 81 (9 * r.toNat + c.toNat), ?_, ?_, ?_, ?_⟩
    · unfold helper_utilities.flatten_state
      rw [if_neg (by push_neg; exact ⟨h1, by exact_mod_cast h2, h3, by exact_mod_cast h4⟩)]
    · rw [length_onehot]
    · rw [getD_onehot, if_pos ⟨rfl, hidx⟩]
    · intro j hj
      rw [getD_onehot, if_neg (by intro hc; exact hj hc.1)]

theorem C6_flatten_witness :
    gw22.flatten_state (-1, 0) = .error GWError.outOfBounds ∧
      (∃ v, gw22.flatten_state (2, 3) = .ok v ∧
        v.length = gw22.num_states ∧
        v.getD (gw22.size * (2 : Int).toNat + (3 : Int).toNat) 0 = 1 ∧
        ∀ j, j ≠ gw22.size * (2 : Int).toNat + (3 : Int).toNat → v.getD j 0 = 0) :=
  ⟨(C6_flatten (2, 2) gw22 build22 (-1) 0).1 (Or.inl (by norm_num)),
    (C6_flatten (2, 2) gw22 build22 2 3).2 (by norm_num) (by decide) (by norm_num)
      (by decide)⟩

/-- C7: after every `reset` and every `step` the human-readable view equals
the `unflatten_state` decoding of the resulting current state, and a
constructed instance has `has_absorbing_state` true exactly when its
terminal-state list is non-empty. -/
theorem C7_human_state :
    (∀ (gw : GridWorldMDP) (i : Nat), 0 < gw.p0.getD i 0 →
      ((gw.reset i).1).human_state =
        helper_utilities.unflatten_state ((gw.reset i).1).current_state gw.size
          gw.has_absorbing_state) ∧
    (∀ (gw : GridWorldMDP) (a j : Nat),
      0 < gw.P (listArgmax gw.current_state) a j →
      ((gw.step a j).1).human_state =
        helper_utilities.unflatten_state ((gw.step a j).1).current_state gw.size
          gw.has_absorbing_state) ∧
    (∀ (g : Int × Int) (gw : GridWorldMDP), buildGridWorldMDP g = .ok gw →
      (gw.has_absorbing_state = true ↔ gw.terminal_states ≠ [])) := by
  refine ⟨fun gw i _ => rfl, fun gw a j _ => rfl, fun g gw hok => ?_⟩
  obtain ⟨-, -, -, -, hterm, -, -, -, habs, -, -⟩ := build_fields g gw hok
  rw [habs, hterm]
  simp [gridworld.terminal_flat, gridworld.terminal_coords]

theorem C7_human_state_witness :
    ((gwTriv.reset 0).1).human_state =
      helper_utilities.unflatten_state ((gwTriv.reset 0).1).current_state
        gwTriv.size gwTriv.has_absorbing_state ∧
    ((gwTriv.step 0 0).1).human_state =
      helper_utilities.unflatten_state ((gwTriv.step 0 0).1).current_state
        gwTriv.size gwTriv.has_absorbing_state ∧
    (gw22.has_absorbing_state = true ↔ gw22.terminal_states ≠ []) :=
  ⟨C7_human_state.1 gwTriv 0 (by simp [gwTriv]),
    C7_human_state.2.1 gwTriv 0 0 (by simp [gwTriv]),
    C7_human_state.2.2 (2, 2) gw22 build22⟩

/-- C8: construction is deterministic — two constructions with the same goal
argument produce identical transition tensors, reward matrices, initial
distributions, sizes, terminal-state lists, and seeds. -/
theorem C8_deterministic (g1 g2 : Int × Int) (gw1 gw2 : GridWorldMDP)
    (heq : g1 = g2) (h1 : buildGridWorldMDP g1 = .ok gw1)
    (h2 : buildGridWorldMDP g2 = .ok gw2) :
    gw1.P = gw2.P ∧ gw1.R = gw2.R ∧ gw1.p0 = gw2.p0 ∧ gw1.size = gw2.size ∧
      gw1.terminal_states = gw2.terminal_states ∧ gw1.seed = gw2.seed := by
  subst heq
  rw [h1] at h2
  cases h2
  exact ⟨rfl, rfl, rfl, rfl, rfl, rfl⟩

theorem C8_deterministic_witness :
    gw22.P = gw22.P ∧ gw22.R = gw22.R ∧ gw22.p0 = gw22.p0 ∧
      gw22.size = gw22.size ∧ gw22.terminal_states = gw22.terminal_states ∧
      gw22.seed = gw22.seed :=
  C8_deterministic (2, 2) (2, 2) gw22 gw22 rfl build22 build22

/-- C9: for every goal argument the MDP is built from the fixed 9-line ascii
room: the size is 9, the transition tensor's recorded shape is
`(81, 4, 81)` (no absorbing state is allocated since `has_terminal_state` is
false and the terminal tuple empty), and `has_absorbing_state` is false. -/
theorem C9_fixed_room (g : Int × Int) (gw : GridWorldMDP)
    (hok : buildGridWorldMDP g = .ok gw) :
    gw.size = 9 ∧ gw.Pshape = (81, 4, 81) ∧ gw.has_absorbing_state = false ∧
      gw.terminal_states = [] := by
  obtain ⟨-, hshape, -, -, hterm, -, -, hsz, habs, -, -⟩ := build_fields g gw hok
  refine ⟨?_, ?_, ?_, ?_⟩
  · rw [hsz, grid_size_eq]
  · rw [hshape, num_states_eq]
  · rw [habs]; rfl
  · rw [hterm]; rfl

theorem C9_fixed_room_witness :
    gw22.size = 9 ∧ gw22.Pshape = (81, 4, 81) ∧
      gw22.has_absorbing_state = false ∧ gw22.terminal_states = [] :=
  C9_fixed_room (2, 2) gw22 build22

/-- C10: `set_current_state_to(coord)` changes only the runtime current
state — to the one-hot of the flat index derived from the coordinate — and
leaves `human_state` (and every other field) unchanged; in particular a
freshly constructed instance still shows the initial `(None, None)` sentinel
before any `reset` or `step`. -/
theorem C10_set_state_frame :
    (∀ (gw : GridWorldMDP) (ts : Int × Int) (gw' : GridWorldMDP),
      gw.set_current_state_to ts = .ok gw' →
      gw'.human_state = gw.human_state ∧
      (∀ v, gw.flatten_state ts = .ok v →
        gw' = { gw with current_state := onehot gw.num_states (listArgmax v) })) ∧
    (∀ (g : Int × Int) (gw : GridWorldMDP), buildGridWorldMDP g = .ok gw →
      gw.human_state = none) := by
  constructor
  · intro gw ts gw' hok
    unfold GridWorldMDP.set_current_state_to at hok
    cases hf : gw.flatten_state ts with
    | error e => rw [hf] at hok; cases hok
    | ok v =>
      rw [hf] at hok
      cases hok
      refine ⟨rfl, fun v' hv' => ?_⟩
      cases Except.ok.inj hv'
      rfl
  · intro g gw hok
    exact (build_fields g gw hok).2.2.2.2.2.2.2.2.2.2

theorem C10_set_state_frame_witness :
    ((gwTriv.set_current_state_to (0, 0)).toOption.getD gwTriv).human_state =
        gwTriv.human_state ∧
      gw22.human_state = none :=
  ⟨(C10_set_state_frame.1 gwTriv (0, 0)
      ((gwTriv.set_current_state_to (0, 0)).toOption.getD gwTriv) rfl).1,
    C10_set_state_frame.2 (2, 2) gw22 build22⟩

